import Mathlib

/-!
Verification of the crop/transform editing engine and raster compositing
pipeline of the Multi-Utility Offline Web Application (src/watermark/app.js
and src/app.js).  Display-scaled coordinates, sizes and quality factors are
modelled as exact rationals (ℚ); the JavaScript source computes with IEEE
doubles, so every statement here is about the exact-arithmetic semantics of
the algorithms.  Division by zero follows the conventions noted at each
definition: where the source's `a / b > c` comparison can meet `b = 0`
(JavaScript yields ±Infinity or NaN there), a dedicated helper reproduces
that behaviour instead of ℚ's `a / 0 = 0`.
-/

namespace Watermark

/-- The `state.crop` record of src/watermark/app.js (geometry fields only:
the drag-session snapshot fields `startX`, `startY`, `startWidth`,
`startHeight`, `startMouseX`, `startMouseY` are passed to the step functions
explicitly, and `isDragging`/`dragType` select which step runs). -/
structure CropState where
  x : ℚ
  y : ℚ
  width : ℚ
  height : ℚ
  scale : ℚ
  /-- `aspectRatio` field: `none` = free, `some r` = fixed ratio. -/
  aspect : Option ℚ
  canvasWidth : ℚ
  canvasHeight : ℚ
  deriving DecidableEq, Repr

/-- The eight resize handles (`dragType` values other than `'move'`). -/
inductive Handle where
  | n | s | e | w | ne | nw | se | sw
  deriving DecidableEq, Repr

/-- `dragType.includes('e')` over the eight handle names. -/
def hasE : Handle → Bool
  | .e | .ne | .se => true
  | _ => false

/-- `dragType.includes('w')` over the eight handle names. -/
def hasW : Handle → Bool
  | .w | .nw | .sw => true
  | _ => false

/-- `dragType.includes('s')` over the eight handle names. -/
def hasS : Handle → Bool
  | .s | .se | .sw => true
  | _ => false

/-- `dragType.includes('n')` over the eight handle names. -/
def hasN : Handle → Bool
  | .n | .ne | .nw => true
  | _ => false

/-- `dragType === 'e' || dragType === 'w'` (edge-only horizontal handles). -/
def isEdgeEW : Handle → Bool
  | .e | .w => true
  | _ => false

/-- `dragType === 'n' || dragType === 's'` (edge-only vertical handles). -/
def isEdgeNS : Handle → Bool
  | .n | .s => true
  | _ => false

/-- The JavaScript comparison `w / h > r` including its division-by-zero
behaviour: when `h = 0`, `w / h` is `+Infinity` (compares greater than any
finite `r`) for `w > 0`, `-Infinity` for `w < 0`, and `NaN` (every
comparison false) for `w = 0`; so the comparison holds exactly when
`0 < w`.  For `h ≠ 0` it is the exact rational comparison. -/
def jsDivGt (w h r : ℚ) : Bool :=
  if h = 0 then decide (0 < w) else decide (r < w / h)

/-- `openCropModal` (src/watermark/app.js lines 384-419): computes
`scale = Math.min(maxWidth / img.width, maxHeight / img.height, 1)`, sizes
the canvas to the scaled image, and seeds the crop box with a 20-unit
padding on every side, with free aspect ratio. -/
def openCropModal (imgW imgH maxW maxH : ℚ) : CropState :=
  let scale := min (min (maxW / imgW) (maxH / imgH)) 1
  let cw := imgW * scale
  let ch := imgH * scale
  { x := 20, y := 20, width := cw - 40, height := ch - 40, scale := scale,
    aspect := none, canvasWidth := cw, canvasHeight := ch }

/-- `constrainCropBox` (lines 477-485): sequentially clamps `x`, `y`,
`width`, `height` (each later line reading the earlier assignments). -/
def constrainCropBox (st : CropState) : CropState :=
  let x := max 0 (min st.x (st.canvasWidth - st.width))
  let y := max 0 (min st.y (st.canvasHeight - st.height))
  let width := max 20 (min st.width (st.canvasWidth - x))
  let height := max 20 (min st.height (st.canvasHeight - y))
  { st with x := x, y := y, width := width, height := height }

/-- `setAspectRatio` (lines 426-453) with the ratio already parsed from the
button's `"W:H"` string (`none` for the `'free'` button).  The guard
`if (state.crop.aspectRatio)` is JavaScript truthiness, so a ratio of `0`
skips the adjustment exactly like `null` does. -/
def setAspect (st : CropState) (r : Option ℚ) : CropState :=
  let st1 := { st with aspect := r }
  match r with
  | none => st1
  | some q =>
    if q = 0 then st1
    else
      constrainCropBox (if jsDivGt st1.width st1.height q
        then { st1 with width := st1.height * q }
        else { st1 with height := st1.width / q })

/-- The `dragType === 'move'` branch of `handleCropMouseMove`
(lines 517-519); `sX`, `sY` are the drag-start snapshot `startX`, `startY`
and `dx`, `dy` the pointer deltas. -/
def moveStep (st : CropState) (sX sY dx dy : ℚ) : CropState :=
  { st with
    x := max 0 (min (sX + dx) (st.canvasWidth - st.width)),
    y := max 0 (min (sY + dy) (st.canvasHeight - st.height)) }

/-- The per-axis resize candidate on the x axis (lines 525-526): an `'e'`
handle grows the width (floored at 20), a `'w'` handle moves the origin and
recomputes the width without a floor. -/
def resizeRawX (han : Handle) (sX sW dx : ℚ) : ℚ × ℚ :=
  if hasW han then (sX + dx, sW - dx)
  else if hasE han then (sX, max 20 (sW + dx))
  else (sX, sW)

/-- The per-axis resize candidate on the y axis (lines 527-528). -/
def resizeRawY (han : Handle) (sY sH dy : ℚ) : ℚ × ℚ :=
  if hasN han then (sY + dy, sH - dy)
  else if hasS han then (sY, max 20 (sH + dy))
  else (sY, sH)

/-- The aspect-ratio adjustment of the candidate size (lines 531-545).
`if (aspectRatio)` is JavaScript truthiness, so ratio `0` is skipped; the
corner-handle comparison `newW / newH > aspectRatio` is `jsDivGt`. -/
def applyAspect (ar : Option ℚ) (han : Handle) (nW nH : ℚ) : ℚ × ℚ :=
  match ar with
  | none => (nW, nH)
  | some r =>
    if r = 0 then (nW, nH)
    else if isEdgeEW han then (nW, nW / r)
    else if isEdgeNS han then (nH * r, nH)
    else if jsDivGt nW nH r then (nH * r, nH)
    else (nW, nW / r)

/-- The full candidate geometry of one resize `mousemove`. -/
structure Candidate where
  nX : ℚ
  nY : ℚ
  nW : ℚ
  nH : ℚ
  deriving DecidableEq, Repr

/-- Candidate geometry computed by the resize branch of
`handleCropMouseMove` before the per-axis acceptance checks. -/
def resizeCandidate (st : CropState) (han : Handle) (sX sY sW sH dx dy : ℚ) :
    Candidate :=
  let xw := resizeRawX han sX sW dx
  let yh := resizeRawY han sY sH dy
  let wh := applyAspect st.aspect han xw.2 yh.2
  ⟨xw.1, yh.1, wh.1, wh.2⟩

/-- The x-axis acceptance check of lines 548-551:
`newW >= 20 && newX >= 0 && newX + newW <= canvasWidth`. -/
def acceptW (st : CropState) (nX nW : ℚ) : Prop :=
  20 ≤ nW ∧ 0 ≤ nX ∧ nX + nW ≤ st.canvasWidth

instance (st : CropState) (nX nW : ℚ) : Decidable (acceptW st nX nW) := by
  unfold acceptW; infer_instance

/-- The y-axis acceptance check of lines 552-555. -/
def acceptH (st : CropState) (nY nH : ℚ) : Prop :=
  20 ≤ nH ∧ 0 ≤ nY ∧ nY + nH ≤ st.canvasHeight

instance (st : CropState) (nY nH : ℚ) : Decidable (acceptH st nY nH) := by
  unfold acceptH; infer_instance

/-- The resize branch of `handleCropMouseMove` (lines 520-556): each axis's
mutation is installed only if its candidate passes the acceptance check,
otherwise that axis keeps its previous value. -/
def resizeStep (st : CropState) (han : Handle) (sX sY sW sH dx dy : ℚ) :
    CropState :=
  let c := resizeCandidate st han sX sY sW sH dx dy
  { st with
    x := if acceptW st c.nX c.nW then c.nX else st.x,
    width := if acceptW st c.nX c.nW then c.nW else st.width,
    y := if acceptH st c.nY c.nH then c.nY else st.y,
    height := if acceptH st c.nY c.nH then c.nH else st.height }

/-- `handleCropMouseMove` (lines 510-559), dispatching on `dragType`. -/
inductive DragType where
  | move
  | handle (han : Handle)
  deriving DecidableEq, Repr

/-- One `mousemove` of an active drag: `sX sY sW sH` are the geometry
snapshot taken by `handleCropMouseDown`, `dx dy` the pointer delta. -/
def handleCropMouseMove (st : CropState) (dt : DragType)
    (sX sY sW sH dx dy : ℚ) : CropState :=
  match dt with
  | .move => moveStep st sX sY dx dy
  | .handle han => resizeStep st han sX sY sW sH dx dy

/-- The result of a successful crop: the `drawImage` source rectangle of
`applyCrop` (lines 566-581), in natural pixel space. -/
structure CropCommand where
  left : ℚ
  top : ℚ
  width : ℚ
  height : ℚ
  deriving DecidableEq, Repr

/-- The user-visible outcome of pressing Apply: the handler either produces
a cropped image or returns early.  There is no reporting path in the
source — `applyCrop` contains no alert or message; the `reported`
constructor exists only to express what the function never does. -/
inductive ApplyCropOutcome where
  | cropped (c : CropCommand)
  | silentNoOp
  | reported (msg : String)
  deriving DecidableEq, Repr

/-- `applyCrop` (lines 566-591) as a pure outcome: converts the region to
natural pixel space by dividing by `scale` and returns early (with no
message) when `width < 10 || height < 10`. -/
def applyCrop (st : CropState) : ApplyCropOutcome :=
  let left := st.x / st.scale
  let top := st.y / st.scale
  let width := st.width / st.scale
  let height := st.height / st.scale
  if width < 10 ∨ height < 10 then .silentNoOp
  else .cropped ⟨left, top, width, height⟩

/-- The slice of the editor's global state that `applyCrop` may mutate:
the source image's dimensions and whether the crop modal is open. -/
structure EditorState where
  imageW : ℚ
  imageH : ℚ
  crop : CropState
  cropModalOpen : Bool
  deriving DecidableEq, Repr

/-- `applyCrop`'s effect on the editor state: on the early return nothing
at all is mutated; on success the original image is replaced by the crop
and the modal closes. -/
def applyCropRun (es : EditorState) : EditorState × ApplyCropOutcome :=
  match applyCrop es.crop with
  | .cropped c =>
    ({ es with imageW := c.width, imageH := c.height, cropModalOpen := false },
      .cropped c)
  | out => (es, out)

/-- The region invariant of the specification: inside the canvas bounds and
at least 20 display units in each dimension. -/
def cropInv (st : CropState) : Prop :=
  0 ≤ st.x ∧ 0 ≤ st.y ∧ st.x + st.width ≤ st.canvasWidth ∧
    st.y + st.height ≤ st.canvasHeight ∧ 20 ≤ st.width ∧ 20 ≤ st.height

instance (st : CropState) : Decidable (cropInv st) := by
  unfold cropInv; infer_instance

/-- A public mutation of an open crop session: the aspect-ratio buttons and
single `mousemove` updates of a drag (whose geometry snapshot `sX sY sW sH`
is universally quantified, which covers every snapshot an actual
`mousedown` could have taken). -/
inductive CropMutation where
  | setAspectBtn (r : Option ℚ)
  | dragMove (sX sY dx dy : ℚ)
  | dragResize (han : Handle) (sX sY sW sH dx dy : ℚ)

/-- Apply one public mutation. -/
def applyMutation (st : CropState) : CropMutation → CropState
  | .setAspectBtn r => setAspect st r
  | .dragMove sX sY dx dy => moveStep st sX sY dx dy
  | .dragResize han sX sY sW sH dx dy => resizeStep st han sX sY sW sH dx dy

/-- Apply a sequence of public mutations in order. -/
def applyMutations (st : CropState) (ms : List CropMutation) : CropState :=
  ms.foldl applyMutation st

/-- The single-anchor placement table of `getPosition`
(src/watermark/app.js lines 303-317): the nine own properties of the
`positions` object literal, as an optional point. -/
def positionsOwn (position : String) (width height fontSize : ℚ) :
    Option (ℚ × ℚ) :=
  let padding := fontSize * (4/5)
  if position = "top-left" then some (padding + fontSize, padding + fontSize / 2)
  else if position = "top-center" then some (width / 2, padding + fontSize / 2)
  else if position = "top-right" then
    some (width - padding - fontSize, padding + fontSize / 2)
  else if position = "middle-left" then some (padding + fontSize, height / 2)
  else if position = "center" then some (width / 2, height / 2)
  else if position = "middle-right" then
    some (width - padding - fontSize, height / 2)
  else if position = "bottom-left" then
    some (padding + fontSize, height - padding - fontSize / 2)
  else if position = "bottom-center" then
    some (width / 2, height - padding - fontSize / 2)
  else if position = "bottom-right" then
    some (width - padding - fontSize, height - padding - fontSize / 2)
  else none

/-- The nine anchor names (the own property keys of `positions`). -/
def anchorNames : List String :=
  ["top-left", "top-center", "top-right", "middle-left", "center",
   "middle-right", "bottom-left", "bottom-center", "bottom-right"]

/-- The property names every JavaScript object literal inherits from
`Object.prototype`; `positions[position]` yields the (truthy) inherited
member for these instead of `undefined`. -/
def objectProtoKeys : List String :=
  ["constructor", "hasOwnProperty", "isPrototypeOf", "propertyIsEnumerable",
   "toLocaleString", "toString", "valueOf", "__defineGetter__",
   "__defineSetter__", "__lookupGetter__", "__lookupSetter__", "__proto__"]

/-- A value `positions[position]` can evaluate to: one of the nine point
objects, or a member inherited from `Object.prototype` (a function, or the
prototype object itself for `"__proto__"`) — an object with no `x`/`y`. -/
inductive JSPosValue where
  | pt (x y : ℚ)
  | protoMember (name : String)
  deriving DecidableEq, Repr

/-- The JavaScript property read `positions[position]`: an own property if
the key is one of the nine anchors, otherwise the member inherited from
`Object.prototype` if the key names one, otherwise `undefined` (`none`). -/
def positionsGet (position : String) (width height fontSize : ℚ) :
    Option JSPosValue :=
  match positionsOwn position width height fontSize with
  | some p => some (.pt p.1 p.2)
  | none =>
    if position ∈ objectProtoKeys then some (.protoMember position) else none

/-- `getPosition` (lines 303-317): `positions[position] || positions.center`.
Point objects and inherited prototype members are both truthy, so the
`positions.center` fallback is reached only when the read is `undefined`. -/
def getPosition (position : String) (width height fontSize : ℚ) : JSPosValue :=
  match positionsGet position width height fontSize with
  | some v => v
  | none => .pt (width / 2) (height / 2)

/-- The watermark settings record `state.settings` of src/watermark/app.js. -/
structure WmSettings where
  text : String
  fontSize : ℚ
  opacity : ℚ
  rotation : ℚ
  color : String
  position : String
  tile : Bool
  tileSpacing : ℚ
  deriving DecidableEq, Repr

/-- One drawing-surface operation issued to the 2D context.  Rotations are
recorded in degrees (the source converts to radians with `Math.PI / 180`;
π is kept symbolic so the trace stays in ℚ).  A `translatePos` of `none`
records the source translating by the undefined `x`/`y` of a non-point
value (NaN in JavaScript). -/
inductive CanvasOp where
  | setCanvasSize (w h : ℚ)
  | drawImageOp (w h : ℚ)
  | save
  | restore
  | setFont (fontSize : ℚ)
  | setFillStyle (color : String)
  | setAlpha (a : ℚ)
  | setTextAlign (s : String)
  | setTextBaseline (s : String)
  | translatePos (p : Option (ℚ × ℚ))
  | rotateDeg (deg : ℚ)
  | setShadow (color : String) (blur offX offY : ℚ)
  | fillTextOp (text : String) (x y : ℚ)
  deriving DecidableEq, Repr

/-- The values `y = start, start + step, ...` while `y < stop`, as produced
by the tiling `for` loops.  For `step ≤ 0` with `start < stop` the
JavaScript loop would never terminate; the model returns the empty list
there (the UI slider keeps the spacing positive). -/
def qSteps (start stop step : ℚ) : List ℚ :=
  if step ≤ 0 then []
  else (List.range ⌈(stop - start) / step⌉.toNat).map
    (fun i => start + step * i)

/-- `renderTiledWatermark` (lines 280-301).  `textWidth` is the
collaborator's `ctx.measureText(text).width` and `diagonal` stands for
`Math.sqrt(width² + height²)` (ℚ has no exact square root; no claim here
depends on its value). -/
def renderTiledWatermark (width height : ℚ) (text : String)
    (fontSize rotation tileSpacing textWidth diagonal : ℚ) : List CanvasOp :=
  let spacingFactor := tileSpacing / 100
  let baseSpacing := max (textWidth * (3/2)) (fontSize * 3)
  let spacing := baseSpacing * spacingFactor
  [.translatePos (some (width / 2, height / 2)), .rotateDeg rotation,
   .setShadow "rgba(0, 0, 0, 0.3)" 3 1 1]
  ++ (qSteps (-diagonal) diagonal (spacing * (7/10))).flatMap
      (fun y => (qSteps (-diagonal) diagonal spacing).map
        (fun x => .fillTextOp text x y))

/-- The coordinates `pos.x`, `pos.y` read off a `getPosition` result:
`none` (undefined/NaN) when the value is not one of the nine points. -/
def posCoords : JSPosValue → Option (ℚ × ℚ)
  | .pt x y => some (x, y)
  | .protoMember _ => none

/-- `applyWatermark` (lines 244-278) as the list of context operations it
issues.  `!text.trim()` is true exactly when every character of the text is
whitespace (in particular for the empty string), so the guard is modelled
as `text.data.all Char.isWhitespace`. -/
def applyWatermark (s : WmSettings) (width height textWidth diagonal : ℚ) :
    List CanvasOp :=
  if s.text.data.all Char.isWhitespace then []
  else
    [.save, .setFont s.fontSize, .setFillStyle s.color,
     .setAlpha (s.opacity / 100), .setTextAlign "center",
     .setTextBaseline "middle"]
    ++ (if s.tile then
          renderTiledWatermark width height s.text s.fontSize s.rotation
            s.tileSpacing textWidth diagonal
        else
          let pos := getPosition s.position width height s.fontSize
          [.translatePos (posCoords pos), .rotateDeg s.rotation,
           .setShadow "rgba(0, 0, 0, 0.5)" 4 2 2, .fillTextOp s.text 0 0])
    ++ [.restore]

/-- `renderPreview` (lines 226-242): size the canvas to the image, draw the
bare image, then apply the watermark. -/
def renderPreview (imgW imgH : ℚ) (s : WmSettings) (textWidth diagonal : ℚ) :
    List CanvasOp :=
  [.setCanvasSize imgW imgH, .drawImageOp imgW imgH]
  ++ applyWatermark s imgW imgH textWidth diagonal

end Watermark

namespace PdfTool

/-- The two compression strategies of src/app.js (the
`compressionMode` select). -/
inductive CompressionMode where
  | lossless
  | lossy
  deriving DecidableEq, Repr

/-- The savings badge of the results card (lines 416-422): percentage
smaller, or percentage larger with a warning style. -/
inductive Badge where
  | smaller (pct : ℤ)
  | larger (pct : ℤ)
  deriving DecidableEq, Repr

/-- Which tip message `showResults` put under the badge (lines 424-430). -/
inductive ResultTip where
  | hidden
  | lossyLargerTip
  | losslessLargerTip
  deriving DecidableEq, Repr

/-- `Number.prototype.toFixed(0)` on a finite value, as an integer: the
sign is split off and the magnitude rounded to the nearest integer, ties
away from zero. -/
def toFixed0 (q : ℚ) : ℤ :=
  if q < 0 then -⌊-q + 1/2⌋ else ⌊q + 1/2⌋

/-- The results card built by `showResults` (lines 402-432). -/
structure ResultsView where
  originalSize : ℚ
  compressedSize : ℚ
  savings : ℤ
  badge : Badge
  tip : ResultTip
  deriving DecidableEq, Repr

/-- `showResults` (lines 402-432): computes
`savings = ((1 - compressedSize / originalSize) * 100).toFixed(0)` and
branches on `savings > 0`; otherwise it shows `Math.abs(savings)% larger`
and unhides the mode-specific tip. -/
def showResults (originalSize compressedSize : ℚ) (mode : CompressionMode) :
    ResultsView :=
  let savings := toFixed0 ((1 - compressedSize / originalSize) * 100)
  if 0 < savings then
    { originalSize := originalSize, compressedSize := compressedSize,
      savings := savings, badge := .smaller savings, tip := .hidden }
  else
    { originalSize := originalSize, compressedSize := compressedSize,
      savings := savings, badge := .larger savings.natAbs,
      tip := if mode = .lossy then .lossyLargerTip else .losslessLargerTip }

/-- The outcome of one `compressPDF` run (lines 269-294): on a normal
completion the compressed blob is retained in state and the results card is
shown; only a thrown exception takes the catch path (alert + `removeFile`,
discarding the file and blob). -/
inductive CompressOutcome where
  | results (compressedBlobSize : ℚ) (view : ResultsView)
  | aborted
  deriving DecidableEq, Repr

/-- `compressPDF` (lines 269-294): the external encode step either yields
compressed bytes of some size (`some`) or throws (`none`). -/
def compressPDF (originalSize : ℚ) (mode : CompressionMode)
    (encoded : Option ℚ) : CompressOutcome :=
  match encoded with
  | some compressedSize =>
    .results compressedSize (showResults originalSize compressedSize mode)
  | none => .aborted

/-- The page-size modes of the image-to-PDF feature
(the `pageSizeSelect` values). -/
inductive PageSizeMode where
  | fit
  | a4
  | letter
  | legal
  deriving DecidableEq, Repr

/-- The `pageSizes` table of `createPdfFromImages` (lines 600-604), in
millimetres.  The object has no entry for `fit`; that key is never looked
up (the `fit` branch returns earlier), so the value returned for it here
is irrelevant. -/
def namedPageSize : PageSizeMode → ℚ × ℚ
  | .a4 => (210, 297)
  | .letter => (2159/10, 2794/10)
  | .legal => (2159/10, 3556/10)
  | .fit => (0, 0)

/-- The geometry of one output page: page size, image offset and image
size, all in millimetres. -/
structure PagePlacement where
  pageW : ℚ
  pageH : ℚ
  imgX : ℚ
  imgY : ℚ
  imgW : ℚ
  imgH : ℚ
  deriving DecidableEq, Repr

/-- The `imgRatio > availRatio` branch of `createPdfFromImages`
(lines 639-648): the final image size inside the available margin box. -/
def fitBox (availWidth availHeight imgAspect : ℚ) : ℚ × ℚ :=
  if availWidth / availHeight < imgAspect then
    (availWidth, availWidth / imgAspect)
  else (availHeight * imgAspect, availHeight)

/-- The per-image page-geometry computation of `createPdfFromImages`
(lines 619-652): `fit` sizes the page to the image at 96 DPI
(`(px / 96) * 25.4` mm) with the image at the origin; a named size keeps
the fixed page, subtracts a 10 mm margin on each side, scales the image by
the `imgRatio > availRatio` comparison and centres it in the margin box. -/
def placeImage (mode : PageSizeMode) (imgWidth imgHeight : ℚ) :
    PagePlacement :=
  match mode with
  | .fit =>
    let pageW := (imgWidth / 96) * (254/10)
    let pageH := (imgHeight / 96) * (254/10)
    ⟨pageW, pageH, 0, 0, pageW, pageH⟩
  | m =>
    let pg := namedPageSize m
    let pageW := pg.1
    let pageH := pg.2
    let margin : ℚ := 10
    let availWidth := pageW - margin * 2
    let availHeight := pageH - margin * 2
    let sz := fitBox availWidth availHeight (imgWidth / imgHeight)
    ⟨pageW, pageH,
      margin + (availWidth - sz.1) / 2, margin + (availHeight - sz.2) / 2,
      sz.1, sz.2⟩

end PdfTool

namespace Watermark

/-- Componentwise clamping as the specification words it: the nearest point
of the closed interval `[lo, hi]`. -/
def specClamp (v lo hi : ℚ) : ℚ := min (max v lo) hi

lemma max_zero_min_eq_clamp (v hi : ℚ) (h : 0 ≤ hi) :
    max 0 (min v hi) = specClamp v 0 hi := by
  unfold specClamp
  rcases le_total v 0 with h1 | h1
  · rw [max_eq_left (le_trans (min_le_left _ _) h1), max_eq_right h1,
      min_eq_left h]
  · rcases le_total v hi with h2 | h2
    · rw [min_eq_left h2, max_eq_right h1, max_eq_left h1, min_eq_left h2]
    · rw [min_eq_right h2, max_eq_right h, max_eq_left h1, min_eq_right h2]

/-- C4: `openCropModal` computes `scale = min(maxW/imgW, maxH/imgH, 1)`,
sets the canvas bounds to the scaled image size, seeds the crop box at
`(20, 20)` with size `bounds - 40` and a free aspect ratio; on a 4000×3000
image with viewport maximum 800×600 this gives scale `1/5`, bounds
`(800, 600)` and region `(20, 20, 760, 560)`. -/
theorem openCropModal_seeds_padded_region (nW nH mW mH : ℚ) :
    (openCropModal nW nH mW mH).scale = min (mW / nW) (min (mH / nH) 1) ∧
    (openCropModal nW nH mW mH).canvasWidth =
      nW * (openCropModal nW nH mW mH).scale ∧
    (openCropModal nW nH mW mH).canvasHeight =
      nH * (openCropModal nW nH mW mH).scale ∧
    (openCropModal nW nH mW mH).x = 20 ∧
    (openCropModal nW nH mW mH).y = 20 ∧
    (openCropModal nW nH mW mH).width =
      (openCropModal nW nH mW mH).canvasWidth - 40 ∧
    (openCropModal nW nH mW mH).height =
      (openCropModal nW nH mW mH).canvasHeight - 40 ∧
    (openCropModal nW nH mW mH).aspect = none ∧
    openCropModal 4000 3000 800 600 =
      ⟨20, 20, 760, 560, 1/5, none, 800, 600⟩ := by
  refine ⟨?_, rfl, rfl, rfl, rfl, rfl, rfl, rfl, ?_⟩
  · simp [openCropModal, min_assoc]
  · simp only [openCropModal, CropState.mk.injEq]
    norm_num [min_def]

/-- C6: a translate-mode drag update clamps the new origin componentwise to
`[0, canvasWidth - width] × [0, canvasHeight - height]` and leaves the size
unchanged, whenever the region fits inside the bounds. -/
theorem moveStep_clamps_origin (st : CropState) (sX sY dx dy : ℚ)
    (hw : st.width ≤ st.canvasWidth) (hh : st.height ≤ st.canvasHeight) :
    (moveStep st sX sY dx dy).x =
      specClamp (sX + dx) 0 (st.canvasWidth - st.width) ∧
    (moveStep st sX sY dx dy).y =
      specClamp (sY + dy) 0 (st.canvasHeight - st.height) ∧
    (moveStep st sX sY dx dy).width = st.width ∧
    (moveStep st sX sY dx dy).height = st.height := by
  refine ⟨?_, ?_, rfl, rfl⟩
  · exact max_zero_min_eq_clamp _ _ (by linarith)
  · exact max_zero_min_eq_clamp _ _ (by linarith)

/-- Closed instance of `moveStep_clamps_origin` at a concrete state. -/
theorem moveStep_clamps_origin_witness :
    ((⟨10, 10, 30, 30, 1, none, 100, 100⟩ : CropState).width ≤ 100 ∧
      (⟨10, 10, 30, 30, 1, none, 100, 100⟩ : CropState).height ≤ 100) ∧
    (moveStep ⟨10, 10, 30, 30, 1, none, 100, 100⟩ 10 10 200 (-50)).x =
      specClamp (10 + 200) 0 (100 - 30) := by
  refine ⟨⟨by norm_num, by norm_num⟩, ?_⟩
  exact (moveStep_clamps_origin ⟨10, 10, 30, 30, 1, none, 100, 100⟩
    10 10 200 (-50) (by norm_num) (by norm_num)).1

/-- C9: when the watermark text is empty or all-whitespace, rendering the
preview issues exactly the bare-image operations — no alpha, shadow,
rotation or text is applied. -/
theorem renderPreview_blank_text_bare_image (s : WmSettings)
    (imgW imgH textWidth diagonal : ℚ)
    (hblank : s.text.data.all Char.isWhitespace = true) :
    renderPreview imgW imgH s textWidth diagonal =
      [.setCanvasSize imgW imgH, .drawImageOp imgW imgH] := by
  simp [renderPreview, applyWatermark, hblank]

/-- Closed instance of `renderPreview_blank_text_bare_image` for a
whitespace-only text. -/
theorem renderPreview_blank_text_bare_image_witness :
    ((" " : String).data.all Char.isWhitespace = true) ∧
    renderPreview 100 80 ⟨" ", 48, 50, -30, "#ffffff", "center", false, 100⟩
        10 5 =
      [.setCanvasSize 100 80, .drawImageOp 100 80] :=
  ⟨by decide, renderPreview_blank_text_bare_image _ 100 80 10 5 (by decide)⟩

/-- C10 (counterexample): `positions["constructor"]` finds the member
inherited from `Object.prototype`, which is truthy, so `getPosition`
returns it — not the centre point `(width/2, height/2)`. -/
theorem getPosition_constructor_not_center :
    getPosition "constructor" 100 100 10 = .protoMember "constructor" ∧
    getPosition "constructor" 100 100 10 ≠ JSPosValue.pt 50 50 := by
  constructor
  · simp [getPosition, positionsGet, positionsOwn, objectProtoKeys]
  · simp [getPosition, positionsGet, positionsOwn, objectProtoKeys]

/-- C10 (amended): for every position string that is neither one of the
nine anchors nor a property name inherited from `Object.prototype`,
`getPosition` falls back to the centre anchor `(width/2, height/2)`. -/
theorem getPosition_defaults_to_center (position : String) (w h f : ℚ)
    (h1 : position ∉ anchorNames) (h2 : position ∉ objectProtoKeys) :
    getPosition position w h f = JSPosValue.pt (w / 2) (h / 2) := by
  simp only [anchorNames, List.mem_cons, List.not_mem_nil, or_false,
    not_or] at h1
  obtain ⟨n1, n2, n3, n4, n5, n6, n7, n8, n9⟩ := h1
  have own : positionsOwn position w h f = none := by
    simp [positionsOwn, n1, n2, n3, n4, n5, n6, n7, n8, n9]
  simp [getPosition, positionsGet, own, h2]

/-- Closed instance of `getPosition_defaults_to_center` at an arbitrary
unknown name. -/
theorem getPosition_defaults_to_center_witness :
    ("banana" ∉ anchorNames ∧ "banana" ∉ objectProtoKeys) ∧
    getPosition "banana" 100 80 12 = JSPosValue.pt 50 40 := by
  refine ⟨⟨by decide, by decide⟩, ?_⟩
  have := getPosition_defaults_to_center "banana" 100 80 12
    (by decide) (by decide)
  rw [this]
  norm_num

/-- C3 (counterexample): on a region whose natural-space size is below 10
pixels the apply handler returns early — nothing is mutated and nothing at
all is reported, in particular no "region too small" message. -/
theorem applyCrop_small_region_silent :
    (applyCropRun ⟨500, 400, ⟨0, 0, 5, 5, 1, none, 30, 30⟩, true⟩).1 =
      ⟨500, 400, ⟨0, 0, 5, 5, 1, none, 30, 30⟩, true⟩ ∧
    (applyCropRun ⟨500, 400, ⟨0, 0, 5, 5, 1, none, 30, 30⟩, true⟩).2 =
      ApplyCropOutcome.silentNoOp ∧
    (applyCropRun ⟨500, 400, ⟨0, 0, 5, 5, 1, none, 30, 30⟩, true⟩).2 ≠
      ApplyCropOutcome.reported "region too small" := by
  refine ⟨?_, ?_, ?_⟩ <;> norm_num [applyCropRun, applyCrop] <;> decide

/-- C3 (amended): the apply handler fails silently — an early return with
no message and no state mutation — exactly when the natural-space width or
height is strictly below 10; at 10 and above it succeeds and produces the
crop command `(x/scale, y/scale, width/scale, height/scale)`, and no
execution reports a message. -/
theorem applyCrop_natural_size_floor (es : EditorState) :
    ((es.crop.width / es.crop.scale < 10 ∨
        es.crop.height / es.crop.scale < 10) →
      applyCropRun es = (es, ApplyCropOutcome.silentNoOp)) ∧
    (10 ≤ es.crop.width / es.crop.scale →
      10 ≤ es.crop.height / es.crop.scale →
      applyCropRun es =
        ({ es with imageW := es.crop.width / es.crop.scale,
                   imageH := es.crop.height / es.crop.scale,
                   cropModalOpen := false },
         ApplyCropOutcome.cropped
           ⟨es.crop.x / es.crop.scale, es.crop.y / es.crop.scale,
            es.crop.width / es.crop.scale,
            es.crop.height / es.crop.scale⟩)) ∧
    (∀ msg : String, (applyCropRun es).2 ≠ ApplyCropOutcome.reported msg) := by
  refine ⟨?_, ?_, ?_⟩
  · intro h
    simp [applyCropRun, applyCrop, if_pos h]
  · intro h1 h2
    have hno : ¬ (es.crop.width / es.crop.scale < 10 ∨
        es.crop.height / es.crop.scale < 10) :=
      not_or.mpr ⟨not_lt.mpr h1, not_lt.mpr h2⟩
    simp [applyCropRun, applyCrop, if_neg hno]
  · intro msg
    simp only [applyCropRun, applyCrop]
    by_cases hc : es.crop.width / es.crop.scale < 10 ∨
        es.crop.height / es.crop.scale < 10
    · simp [hc]
    · simp [hc]

/-- Closed instance of `applyCrop_natural_size_floor` at the exact
threshold: a region whose natural-space size is exactly 10×10 commits. -/
theorem applyCrop_natural_size_floor_witness :
    ((10 : ℚ) ≤ (⟨0, 0, 5, 5, 1/2, none, 30, 30⟩ : CropState).width / (1/2) ∧
      (10 : ℚ) ≤ (⟨0, 0, 5, 5, 1/2, none, 30, 30⟩ : CropState).height / (1/2)) ∧
    applyCropRun ⟨500, 400, ⟨0, 0, 5, 5, 1/2, none, 30, 30⟩, true⟩ =
      (⟨10, 10, ⟨0, 0, 5, 5, 1/2, none, 30, 30⟩, false⟩,
       ApplyCropOutcome.cropped ⟨0, 0, 10, 10⟩) := by
  refine ⟨⟨by norm_num, by norm_num⟩, ?_⟩
  have := (applyCrop_natural_size_floor
    ⟨500, 400, ⟨0, 0, 5, 5, 1/2, none, 30, 30⟩, true⟩).2.1
    (by norm_num) (by norm_num)
  rw [this]
  norm_num

/-- C5: setting an aspect ratio `r` shrinks the width to `height * r` when
the current `width/height` exceeds `r` and otherwise shrinks the height to
`width / r`, then re-clamps through `constrainCropBox`; switching back to
free leaves the geometry untouched.  On the seeded 800×600 session
(region 760×560), ratio 16:9 keeps the width at 760 and reduces the height
to `760 / (16/9)`. -/
theorem setAspect_shrinks_then_clamps (st : CropState) (r : ℚ)
    (hr : 0 < r) (hh : 0 < st.height) :
    (setAspect st (some r) =
      constrainCropBox (if r < st.width / st.height
        then { st with aspect := some r, width := st.height * r }
        else { st with aspect := some r, height := st.width / r })) ∧
    (setAspect st none = { st with aspect := none }) ∧
    (setAspect (openCropModal 4000 3000 800 600) (some (16/9))).width =
      760 ∧
    (setAspect (openCropModal 4000 3000 800 600) (some (16/9))).height =
      760 / (16/9) := by
  refine ⟨?_, rfl, ?_, ?_⟩
  · have hjs : jsDivGt st.width st.height r = decide (r < st.width / st.height) := by
      rw [jsDivGt, if_neg (ne_of_gt hh)]
    simp only [setAspect, if_neg hr.ne', hjs]
    by_cases hlt : r < st.width / st.height
    · simp [hlt]
    · simp [hlt]
  · norm_num [setAspect, openCropModal, constrainCropBox, jsDivGt,
      min_def, max_def]
  · norm_num [setAspect, openCropModal, constrainCropBox, jsDivGt,
      min_def, max_def]

/-- Closed instance of `setAspect_shrinks_then_clamps`: the free button
leaves a concrete region's geometry unchanged. -/
theorem setAspect_shrinks_then_clamps_witness :
    ((0 : ℚ) < 2 ∧ (0 : ℚ) < (⟨0, 0, 40, 20, 1, none, 100, 100⟩ : CropState).height) ∧
    setAspect ⟨0, 0, 40, 20, 1, none, 100, 100⟩ none =
      ⟨0, 0, 40, 20, 1, none, 100, 100⟩ := by
  refine ⟨⟨by norm_num, by norm_num⟩, ?_⟩
  exact (setAspect_shrinks_then_clamps
    ⟨0, 0, 40, 20, 1, none, 100, 100⟩ 2 (by norm_num) (by norm_num)).2.1

end Watermark

namespace PdfTool

/-- C7: when a successful compression run produces output larger than the
input, the run still ends in the results view (no abort): the view carries
both sizes, shows a size-increase badge, unhides the tip, and the
compressed blob is retained in the outcome. -/
theorem compress_larger_output_nonerror (orig sz : ℚ) (mode : CompressionMode)
    (h0 : 0 < orig) (hlarger : orig < sz) :
    compressPDF orig mode (some sz) =
      CompressOutcome.results sz (showResults orig sz mode) ∧
    (showResults orig sz mode).badge =
      Badge.larger (toFixed0 ((1 - sz / orig) * 100)).natAbs ∧
    (showResults orig sz mode).tip ≠ ResultTip.hidden ∧
    (showResults orig sz mode).originalSize = orig ∧
    (showResults orig sz mode).compressedSize = sz ∧
    compressPDF orig mode (some sz) ≠ CompressOutcome.aborted := by
  have hq : (1 - sz / orig) * 100 < 0 := by
    have h1 : 1 < sz / orig := (one_lt_div h0).mpr hlarger
    nlinarith
  have hsav : toFixed0 ((1 - sz / orig) * 100) ≤ 0 := by
    rw [toFixed0, if_pos hq]
    have h2 : (0 : ℚ) ≤ -((1 - sz / orig) * 100) + 1/2 := by linarith
    have h3 : (0 : ℤ) ≤ ⌊-((1 - sz / orig) * 100) + 1/2⌋ :=
      Int.le_floor.mpr (by exact_mod_cast h2)
    linarith
  have hnot : ¬ (0 < toFixed0 ((1 - sz / orig) * 100)) := not_lt.mpr hsav
  refine ⟨rfl, ?_, ?_, ?_, ?_, by simp [compressPDF]⟩
  · simp [showResults, hnot]
  · rcases mode <;> simp [showResults, hnot]
  · simp [showResults, hnot]
  · simp [showResults, hnot]

/-- Closed instance of `compress_larger_output_nonerror`: a 100-byte file
compressed to 150 bytes still shows results with the tip visible. -/
theorem compress_larger_output_nonerror_witness :
    ((0 : ℚ) < 100 ∧ (100 : ℚ) < 150) ∧
    (showResults 100 150 CompressionMode.lossy).tip ≠ ResultTip.hidden ∧
    compressPDF 100 CompressionMode.lossy (some 150) ≠
      CompressOutcome.aborted := by
  refine ⟨⟨by norm_num, by norm_num⟩, ?_, ?_⟩
  · exact (compress_larger_output_nonerror 100 150 CompressionMode.lossy
      (by norm_num) (by norm_num)).2.2.1
  · exact (compress_larger_output_nonerror 100 150 CompressionMode.lossy
      (by norm_num) (by norm_num)).2.2.2.2.2

lemma fitBox_spec (availW availH w h : ℚ) (haw : 0 < availW)
    (hah : 0 < availH) (hw : 0 < w) (hh : 0 < h) :
    (fitBox availW availH (w / h)).1 * h =
      (fitBox availW availH (w / h)).2 * w ∧
    (fitBox availW availH (w / h)).1 ≤ availW ∧
    (fitBox availW availH (w / h)).2 ≤ availH ∧
    (∀ w2 h2 : ℚ, 0 ≤ w2 → w2 * h = h2 * w → w2 ≤ availW → h2 ≤ availH →
      w2 ≤ (fitBox availW availH (w / h)).1 ∧
      h2 ≤ (fitBox availW availH (w / h)).2) := by
  have hr : 0 < w / h := div_pos hw hh
  unfold fitBox
  by_cases hc : availW / availH < w / h
  · simp only [if_pos hc]
    have key : availW / (w / h) * w = availW * h := by
      field_simp
    refine ⟨?_, le_refl _, ?_, ?_⟩
    · rw [key]
    · rw [div_le_iff hr]
      have h1 := (div_lt_iff hah).mp hc
      have h2 : w / h * availH = availH * (w / h) := mul_comm _ _
      linarith
    · intro w2 h2 hw2 heq hw2le hh2le
      refine ⟨hw2le, ?_⟩
      rw [le_div_iff hr]
      have h1 : h2 * w ≤ availW * h := by
        rw [← heq]
        exact mul_le_mul_of_nonneg_right hw2le hh.le
      have h3 : h2 * (w / h) = h2 * w / h := by ring
      rw [h3, div_le_iff hh]
      linarith
  · simp only [if_neg hc]
    push_neg at hc
    have key : availH * (w / h) * h = availH * w := by
      field_simp
    refine ⟨?_, ?_, le_refl _, ?_⟩
    · rw [key]
    · have h1 := (le_div_iff hah).mp hc
      have h2 : availH * (w / h) = w / h * availH := mul_comm _ _
      linarith
    · intro w2 h2 hw2 heq hw2le hh2le
      refine ⟨?_, hh2le⟩
      have h1 : w2 * h ≤ availH * w := by
        rw [heq]
        exact mul_le_mul_of_nonneg_right hh2le hw.le
      have h2 : w2 ≤ availH * w / h := by
        rw [le_div_iff hh]
        linarith
      have h3 : availH * w / h = availH * (w / h) := by ring
      linarith

lemma named_geometry (pW pH w h : ℚ) (haw : 0 < pW - 10 * 2)
    (hah : 0 < pH - 10 * 2) (hw : 0 < w) (hh : 0 < h) :
    (fitBox (pW - 10 * 2) (pH - 10 * 2) (w / h)).1 * h =
      (fitBox (pW - 10 * 2) (pH - 10 * 2) (w / h)).2 * w ∧
    (fitBox (pW - 10 * 2) (pH - 10 * 2) (w / h)).1 ≤ pW - 10 * 2 ∧
    (fitBox (pW - 10 * 2) (pH - 10 * 2) (w / h)).2 ≤ pH - 10 * 2 ∧
    (∀ w2 h2 : ℚ, 0 ≤ w2 → w2 * h = h2 * w → w2 ≤ pW - 10 * 2 →
      h2 ≤ pH - 10 * 2 →
      w2 ≤ (fitBox (pW - 10 * 2) (pH - 10 * 2) (w / h)).1 ∧
      h2 ≤ (fitBox (pW - 10 * 2) (pH - 10 * 2) (w / h)).2) ∧
    2 * (10 + (pW - 10 * 2 -
        (fitBox (pW - 10 * 2) (pH - 10 * 2) (w / h)).1) / 2) +
      (fitBox (pW - 10 * 2) (pH - 10 * 2) (w / h)).1 = pW ∧
    2 * (10 + (pH - 10 * 2 -
        (fitBox (pW - 10 * 2) (pH - 10 * 2) (w / h)).2) / 2) +
      (fitBox (pW - 10 * 2) (pH - 10 * 2) (w / h)).2 = pH := by
  obtain ⟨k1, k2, k3, k4⟩ :=
    fitBox_spec (pW - 10 * 2) (pH - 10 * 2) w h haw hah hw hh
  exact ⟨k1, k2, k3, k4, by ring, by ring⟩

/-- C8: with `fit` the page is sized exactly to the image at 96 DPI with
the image at the origin; with a named size (A4 210×297, Letter
215.9×279.4, Legal 215.9×355.6 mm) the page is fixed regardless of the
image's aspect ratio, the image is scaled to the largest size that fits
the page minus a 10 mm margin on each side while preserving `w/h`
(`imgW * h = imgH * w`, within bounds, and no larger ratio-preserving size
fits), and it is centred on the page in both axes; the A4 margin box is
190×277 mm. -/
theorem placeImage_page_geometry (w h : ℚ) (hw : 0 < w) (hh : 0 < h) :
    (placeImage .fit w h =
      ⟨w / 96 * (254/10), h / 96 * (254/10), 0, 0,
       w / 96 * (254/10), h / 96 * (254/10)⟩) ∧
    namedPageSize .a4 = (210, 297) ∧
    namedPageSize .letter = (2159/10, 2794/10) ∧
    namedPageSize .legal = (2159/10, 3556/10) ∧
    ((namedPageSize .a4).1 - 10 * 2 = 190 ∧
      (namedPageSize .a4).2 - 10 * 2 = 277) ∧
    ∀ m : PageSizeMode, m ≠ .fit →
      (placeImage m w h).pageW = (namedPageSize m).1 ∧
      (placeImage m w h).pageH = (namedPageSize m).2 ∧
      (placeImage m w h).imgW * h = (placeImage m w h).imgH * w ∧
      (placeImage m w h).imgW ≤ (namedPageSize m).1 - 10 * 2 ∧
      (placeImage m w h).imgH ≤ (namedPageSize m).2 - 10 * 2 ∧
      (∀ w2 h2 : ℚ, 0 ≤ w2 → w2 * h = h2 * w →
        w2 ≤ (namedPageSize m).1 - 10 * 2 →
        h2 ≤ (namedPageSize m).2 - 10 * 2 →
        w2 ≤ (placeImage m w h).imgW ∧ h2 ≤ (placeImage m w h).imgH) ∧
      2 * (placeImage m w h).imgX + (placeImage m w h).imgW =
        (namedPageSize m).1 ∧
      2 * (placeImage m w h).imgY + (placeImage m w h).imgH =
        (namedPageSize m).2 := by
  refine ⟨rfl, rfl, rfl, rfl, ⟨by norm_num [namedPageSize],
    by norm_num [namedPageSize]⟩, ?_⟩
  intro m hm
  rcases m with _ | _ | _ | _
  · exact absurd rfl hm
  · obtain ⟨k1, k2, k3, k4, k5, k6⟩ :=
      named_geometry 210 297 w h (by norm_num) (by norm_num) hw hh
    exact ⟨rfl, rfl, k1, k2, k3, k4, k5, k6⟩
  · obtain ⟨k1, k2, k3, k4, k5, k6⟩ :=
      named_geometry (2159/10) (2794/10) w h (by norm_num) (by norm_num)
        hw hh
    exact ⟨rfl, rfl, k1, k2, k3, k4, k5, k6⟩
  · obtain ⟨k1, k2, k3, k4, k5, k6⟩ :=
      named_geometry (2159/10) (3556/10) w h (by norm_num) (by norm_num)
        hw hh
    exact ⟨rfl, rfl, k1, k2, k3, k4, k5, k6⟩

/-- Closed instance of `placeImage_page_geometry`: a 400×300 image on A4
gets the fixed 210 mm page width. -/
theorem placeImage_page_geometry_witness :
    ((0 : ℚ) < 400 ∧ (0 : ℚ) < 300) ∧
    (placeImage .a4 400 300).pageW = (namedPageSize .a4).1 := by
  refine ⟨⟨by norm_num, by norm_num⟩, ?_⟩
  exact (((placeImage_page_geometry 400 300 (by norm_num)
    (by norm_num)).2.2.2.2.2) .a4 (by decide)).1

end PdfTool

namespace Watermark

lemma moveStep_inv (st : CropState) (sX sY dx dy : ℚ) (h : cropInv st) :
    cropInv (moveStep st sX sY dx dy) := by
  obtain ⟨hx, hy, hxw, hyh, hw, hh⟩ := h
  unfold moveStep cropInv
  simp only
  have e1 : max 0 (min (sX + dx) (st.canvasWidth - st.width)) ≤
      st.canvasWidth - st.width :=
    max_le (by linarith) (min_le_right _ _)
  have e2 : max 0 (min (sY + dy) (st.canvasHeight - st.height)) ≤
      st.canvasHeight - st.height :=
    max_le (by linarith) (min_le_right _ _)
  exact ⟨le_max_left _ _, le_max_left _ _, by linarith, by linarith, hw, hh⟩

lemma resizeStep_inv (st : CropState) (han : Handle) (sX sY sW sH dx dy : ℚ)
    (h : cropInv st) : cropInv (resizeStep st han sX sY sW sH dx dy) := by
  obtain ⟨hx, hy, hxw, hyh, hw, hh⟩ := h
  unfold resizeStep cropInv
  simp only
  set c := resizeCandidate st han sX sY sW sH dx dy with hc
  by_cases hW : acceptW st c.nX c.nW <;> by_cases hH : acceptH st c.nY c.nH
  · rw [if_pos hW, if_pos hW, if_pos hH, if_pos hH]
    unfold acceptW at hW
    unfold acceptH at hH
    obtain ⟨a1, a2, a3⟩ := hW
    obtain ⟨b1, b2, b3⟩ := hH
    exact ⟨a2, b2, a3, b3, a1, b1⟩
  · rw [if_pos hW, if_pos hW, if_neg hH, if_neg hH]
    unfold acceptW at hW
    obtain ⟨a1, a2, a3⟩ := hW
    exact ⟨a2, hy, a3, hyh, a1, hh⟩
  · rw [if_neg hW, if_neg hW, if_pos hH, if_pos hH]
    unfold acceptH at hH
    obtain ⟨b1, b2, b3⟩ := hH
    exact ⟨hx, b2, hxw, b3, hw, b1⟩
  · rw [if_neg hW, if_neg hW, if_neg hH, if_neg hH]
    exact ⟨hx, hy, hxw, hyh, hw, hh⟩

lemma constrain_any_inv (st : CropState) (w2 h2 : ℚ) (h : cropInv st) :
    cropInv (constrainCropBox { st with width := w2, height := h2 }) := by
  obtain ⟨hx, hy, hxw, hyh, hw, hh⟩ := h
  unfold constrainCropBox cropInv
  simp only
  set x1 := max 0 (min st.x (st.canvasWidth - w2)) with hx1
  set y1 := max 0 (min st.y (st.canvasHeight - h2)) with hy1
  have hx1a : 0 ≤ x1 := le_max_left _ _
  have hy1a : 0 ≤ y1 := le_max_left _ _
  have hx1b : x1 ≤ st.x := max_le hx (min_le_left _ _)
  have hy1b : y1 ≤ st.y := max_le hy (min_le_left _ _)
  have ew : max 20 (min w2 (st.canvasWidth - x1)) ≤ st.canvasWidth - x1 :=
    max_le (by linarith) (min_le_right _ _)
  have eh : max 20 (min h2 (st.canvasHeight - y1)) ≤ st.canvasHeight - y1 :=
    max_le (by linarith) (min_le_right _ _)
  exact ⟨hx1a, hy1a, by linarith, by linarith, le_max_left _ _,
    le_max_left _ _⟩

lemma setAspect_inv (st : CropState) (r : Option ℚ) (h : cropInv st) :
    cropInv (setAspect st r) := by
  obtain ⟨hx, hy, hxw, hyh, hw, hh⟩ := h
  rcases r with _ | q
  · exact ⟨hx, hy, hxw, hyh, hw, hh⟩
  · by_cases hq : q = 0
    · simp only [setAspect, if_pos hq]
      exact ⟨hx, hy, hxw, hyh, hw, hh⟩
    · simp only [setAspect, if_neg hq]
      have h1 : cropInv { st with aspect := some q } :=
        ⟨hx, hy, hxw, hyh, hw, hh⟩
      by_cases hgt : jsDivGt st.width st.height q = true
      · rw [if_pos hgt]
        exact constrain_any_inv { st with aspect := some q }
          (st.height * q) st.height h1
      · rw [if_neg hgt]
        exact constrain_any_inv { st with aspect := some q }
          st.width (st.width / q) h1

lemma applyMutation_inv (st : CropState) (m : CropMutation) (h : cropInv st) :
    cropInv (applyMutation st m) := by
  rcases m with r | ⟨sX, sY, dx, dy⟩ | ⟨han, sX, sY, sW, sH, dx, dy⟩
  · exact setAspect_inv st r h
  · exact moveStep_inv st sX sY dx dy h
  · exact resizeStep_inv st han sX sY sW sH dx dy h

lemma applyMutations_inv (st : CropState) (ms : List CropMutation)
    (h : cropInv st) : cropInv (applyMutations st ms) := by
  induction ms generalizing st with
  | nil => exact h
  | cons m ms ih => exact ih _ (applyMutation_inv st m h)

lemma openCropModal_inv (imgW imgH maxW maxH : ℚ)
    (h1 : 60 ≤ (openCropModal imgW imgH maxW maxH).canvasWidth)
    (h2 : 60 ≤ (openCropModal imgW imgH maxW maxH).canvasHeight) :
    cropInv (openCropModal imgW imgH maxW maxH) := by
  simp only [openCropModal] at h1 h2 ⊢
  unfold cropInv
  simp only
  refine ⟨by norm_num, by norm_num, by linarith, by linarith, by linarith,
    by linarith⟩

/-- C1 (amended): every state reachable from an opened session by public
mutations (aspect-ratio buttons, translate and resize drag updates, with
arbitrary drag snapshots and pointer deltas) satisfies the region
invariant, provided the session's scaled canvas bounds are at least 60×60
display units so that the 20-padded seed region is itself legal. -/
theorem crop_region_invariant_reachable (imgW imgH maxW maxH : ℚ)
    (ms : List CropMutation)
    (hcw : 60 ≤ (openCropModal imgW imgH maxW maxH).canvasWidth)
    (hch : 60 ≤ (openCropModal imgW imgH maxW maxH).canvasHeight) :
    cropInv (applyMutations (openCropModal imgW imgH maxW maxH) ms) :=
  applyMutations_inv _ ms (openCropModal_inv _ _ _ _ hcw hch)

/-- C1 (counterexample): opening a session on a 30×30 image (scale 1,
bounds 30×30) seeds the region with width `30 - 40 = -10`, violating the
`width ≥ 20` floor — so the invariant does not hold for images of every
natural size. -/
theorem openCropModal_small_image_breaks_floor :
    ¬ cropInv (applyMutations (openCropModal 30 30 800 600) []) ∧
    (openCropModal 30 30 800 600).width = -10 := by
  constructor
  · intro hinv
    have hw20 := hinv.2.2.2.2.1
    norm_num [applyMutations, openCropModal, min_def] at hw20
  · norm_num [openCropModal, min_def]

/-- Closed instance of `crop_region_invariant_reachable` on the 800×600
session after one translate drag. -/
theorem crop_region_invariant_reachable_witness :
    ((60 : ℚ) ≤ (openCropModal 4000 3000 800 600).canvasWidth ∧
      (60 : ℚ) ≤ (openCropModal 4000 3000 800 600).canvasHeight) ∧
    cropInv (applyMutations (openCropModal 4000 3000 800 600)
      [CropMutation.dragMove 20 20 300 300]) := by
  refine ⟨⟨?_, ?_⟩, ?_⟩
  · norm_num [openCropModal, min_def]
  · norm_num [openCropModal, min_def]
  · exact crop_region_invariant_reachable 4000 3000 800 600 _
      (by norm_num [openCropModal, min_def])
      (by norm_num [openCropModal, min_def])

lemma resizeCandidate_keeps_aspect (st : CropState) (r : ℚ) (hr : r ≠ 0)
    (har : st.aspect = some r) (han : Handle) (sX sY sW sH dx dy : ℚ) :
    (resizeCandidate st han sX sY sW sH dx dy).nW =
      r * (resizeCandidate st han sX sY sW sH dx dy).nH := by
  simp only [resizeCandidate, applyAspect, har]
  split_ifs with h0 h1 h2 h3
  · exact absurd h0 hr
  · simp only
    field_simp
  · simp only
    ring
  · simp only
    ring
  · simp only
    field_simp

/-- C2 (amended): with aspect ratio `r > 0`, a resize drag update preserves
`width = r * height` exactly whenever the two per-axis bounds checks
agree — both axes accept their candidates (which satisfy the ratio by
construction) or both reject (keeping the previous ratio-satisfying
geometry).  When exactly one axis is rejected the ratio can break, as
`resize_one_axis_breaks_aspect` shows. -/
theorem resizeStep_keeps_aspect_when_axes_agree (st : CropState) (r : ℚ)
    (hr : 0 < r) (har : st.aspect = some r)
    (hprior : st.width = r * st.height) (han : Handle)
    (sX sY sW sH dx dy : ℚ)
    (hagree : acceptW st (resizeCandidate st han sX sY sW sH dx dy).nX
        (resizeCandidate st han sX sY sW sH dx dy).nW ↔
      acceptH st (resizeCandidate st han sX sY sW sH dx dy).nY
        (resizeCandidate st han sX sY sW sH dx dy).nH) :
    (resizeStep st han sX sY sW sH dx dy).width =
      r * (resizeStep st han sX sY sW sH dx dy).height := by
  have hcand := resizeCandidate_keeps_aspect st r hr.ne' har han
    sX sY sW sH dx dy
  unfold resizeStep
  simp only
  by_cases hW : acceptW st (resizeCandidate st han sX sY sW sH dx dy).nX
      (resizeCandidate st han sX sY sW sH dx dy).nW
  · rw [if_pos hW, if_pos (hagree.mp hW)]
    exact hcand
  · rw [if_neg hW, if_neg (fun hH => hW (hagree.mpr hH))]
    exact hprior

/-- C2 (counterexample): with aspect ratio 1 on a 50×50 region in 200×100
bounds, an east-edge drag of `dx = 60` accepts the width axis (110 fits in
200) but rejects the height axis (110 exceeds 100), leaving 110×50 — the
ratio `width/height = r` is broken by a single `updateDrag`. -/
theorem resize_one_axis_breaks_aspect :
    (⟨0, 0, 50, 50, 1, some 1, 200, 100⟩ : CropState).aspect = some 1 ∧
    (⟨0, 0, 50, 50, 1, some 1, 200, 100⟩ : CropState).width =
      1 * (⟨0, 0, 50, 50, 1, some 1, 200, 100⟩ : CropState).height ∧
    (resizeStep ⟨0, 0, 50, 50, 1, some 1, 200, 100⟩ .e 0 0 50 50 60 0).width
      = 110 ∧
    (resizeStep ⟨0, 0, 50, 50, 1, some 1, 200, 100⟩ .e 0 0 50 50 60 0).height
      = 50 ∧
    (resizeStep ⟨0, 0, 50, 50, 1, some 1, 200, 100⟩ .e 0 0 50 50 60 0).width
      ≠ 1 *
      (resizeStep ⟨0, 0, 50, 50, 1, some 1, 200, 100⟩ .e 0 0 50 50 60 0).height := by
  refine ⟨rfl, by norm_num, ?_, ?_, ?_⟩ <;>
    norm_num [resizeStep, resizeCandidate, resizeRawX, resizeRawY,
      applyAspect, jsDivGt, hasE, hasW, hasN, hasS, isEdgeEW, isEdgeNS,
      acceptW, acceptH, max_def]

/-- Closed instance of `resizeStep_keeps_aspect_when_axes_agree`: a
south-east corner drag inside 100×100 bounds keeps ratio 1. -/
theorem resizeStep_keeps_aspect_when_axes_agree_witness :
    ((0 : ℚ) < 1 ∧
      (⟨0, 0, 50, 50, 1, some 1, 100, 100⟩ : CropState).aspect = some 1 ∧
      (⟨0, 0, 50, 50, 1, some 1, 100, 100⟩ : CropState).width =
        1 * (⟨0, 0, 50, 50, 1, some 1, 100, 100⟩ : CropState).height) ∧
    (resizeStep ⟨0, 0, 50, 50, 1, some 1, 100, 100⟩ .se 0 0 50 50 10 0).width
      = 1 *
      (resizeStep ⟨0, 0, 50, 50, 1, some 1, 100, 100⟩ .se 0 0 50 50 10 0).height := by
  refine ⟨⟨by norm_num, rfl, by norm_num⟩, ?_⟩
  apply resizeStep_keeps_aspect_when_axes_agree
    ⟨0, 0, 50, 50, 1, some 1, 100, 100⟩ 1 (by norm_num) rfl (by norm_num)
    .se 0 0 50 50 10 0
  exact iff_of_true
    (by norm_num [resizeCandidate, resizeRawX, resizeRawY, applyAspect,
      jsDivGt, hasE, hasW, hasN, hasS, isEdgeEW, isEdgeNS, acceptW, max_def])
    (by norm_num [resizeCandidate, resizeRawX, resizeRawY, applyAspect,
      jsDivGt, hasE, hasW, hasN, hasS, isEdgeEW, isEdgeNS, acceptH, max_def])

end Watermark
